import Mathlib

set_option maxRecDepth 1000000

/-!
Verification development for the request-signing and response-envelope core of
a Python AliExpress API client library.

The embedding below is a shallow model of the Python source:

* `sign`, system-parameter assembly and `getApplicationParameters` model
  aliexpress_api/sdk/api/base.py;
* `api_request` and its envelope unwrapping model
  aliexpress_api/helpers/requests.py;
* `from_dict` models aliexpress_api/models/base.py.

Python dictionaries are modelled as association lists in insertion order with
pairwise distinct keys (a Python dict cannot hold a duplicate key); JSON values
are modelled by the inductive type `JValue`, with `JValue.null` standing for
the Python value None. SHA-256 and HMAC-SHA-256 are implemented concretely on
byte lists so that every signature in a theorem is a real digest value.
-/

/-! ## SHA-256 and HMAC-SHA-256 on byte lists

A byte is a `Nat` below 256; a 32-bit word is a `Nat` below 2 to the 32.
This mirrors hashlib.sha256 and hmac.new from the Python standard library,
which `sign` in sdk/api/base.py calls.
-/

/-- Truncation to a 32-bit word. -/
def w32 (n : Nat) : Nat := n % 4294967296

/-- Rotation of a word to the right by a given count. -/
def rotr (x n : Nat) : Nat := w32 ((x >>> n) ||| (x <<< (32 - n)))

/-- The SHA-256 choice function. -/
def shaCh (x y z : Nat) : Nat := (x &&& y) ^^^ ((x ^^^ 4294967295) &&& z)

/-- The SHA-256 majority function. -/
def shaMaj (x y z : Nat) : Nat := (x &&& y) ^^^ (x &&& z) ^^^ (y &&& z)

/-- The SHA-256 big sigma 0 function. -/
def bigS0 (x : Nat) : Nat := rotr x 2 ^^^ rotr x 13 ^^^ rotr x 22

/-- The SHA-256 big sigma 1 function. -/
def bigS1 (x : Nat) : Nat := rotr x 6 ^^^ rotr x 11 ^^^ rotr x 25

/-- The SHA-256 small sigma 0 function. -/
def smallS0 (x : Nat) : Nat := rotr x 7 ^^^ rotr x 18 ^^^ (x >>> 3)

/-- The SHA-256 small sigma 1 function. -/
def smallS1 (x : Nat) : Nat := rotr x 17 ^^^ rotr x 19 ^^^ (x >>> 10)

/-- The 64 round constants of FIPS 180-4, as decimal numbers. -/
def shaK : List Nat :=
  [1116352408, 1899447441, 3049323471, 3921009573,
   961987163, 1508970993, 2453635748, 2870763221,
   3624381080, 310598401, 607225278, 1426881987,
   1925078388, 2162078206, 2614888103, 3248222580,
   3835390401, 4022224774, 264347078, 604807628,
   770255983, 1249150122, 1555081692, 1996064986,
   2554220882, 2821834349, 2952996808, 3210313671,
   3336571891, 3584528711, 113926993, 338241895,
   666307205, 773529912, 1294757372, 1396182291,
   1695183700, 1986661051, 2177026350, 2456956037,
   2730485921, 2820302411, 3259730800, 3345764771,
   3516065817, 3600352804, 4094571909, 275423344,
   430227734, 506948616, 659060556, 883997877,
   958139571, 1322822218, 1537002063, 1747873779,
   1955562222, 2024104815, 2227730452, 2361852424,
   2428436474, 2756734187, 3204031479, 3329325298]

/-- The eight-word SHA-256 hash state. -/
structure H8 where
  a : Nat
  b : Nat
  c : Nat
  d : Nat
  e : Nat
  f : Nat
  g : Nat
  h : Nat

/-- The initial hash state of FIPS 180-4, as decimal numbers. -/
def shaInit : H8 :=
  ⟨1779033703, 3144134277, 1013904242, 2773480762,
   1359893119, 2600822924, 528734635, 1541459225⟩

/-- Big-endian 32-bit words from a byte list. -/
def toWords : List Nat → List Nat
  | b0 :: b1 :: b2 :: b3 :: rest =>
      (b0 * 16777216 + b1 * 65536 + b2 * 256 + b3) :: toWords rest
  | _ => []

/-- The schedule word a given distance back from the end of the schedule. -/
def scheduleGet (w : List Nat) (backIdx : Nat) : Nat := w.getD (w.length - backIdx) 0

/-- Extension of the 16-word message schedule by the given number of words. -/
def extendSchedule : List Nat → Nat → List Nat
  | w, 0 => w
  | w, fuel + 1 =>
      let next := w32 (scheduleGet w 16 + smallS0 (scheduleGet w 15) +
                       scheduleGet w 7 + smallS1 (scheduleGet w 2))
      extendSchedule (w ++ [next]) fuel

/-- One SHA-256 compression round, consuming one constant and schedule word. -/
def roundStep (st : H8) (kw : Nat × Nat) : H8 :=
  let t1 := w32 (st.h + bigS1 st.e + shaCh st.e st.f st.g + kw.1 + kw.2)
  let t2 := w32 (bigS0 st.a + shaMaj st.a st.b st.c)
  ⟨w32 (t1 + t2), st.a, st.b, st.c, w32 (st.d + t1), st.e, st.f, st.g⟩

/-- The SHA-256 compression function on one 64-byte chunk. -/
def compress (st : H8) (chunk : List Nat) : H8 :=
  let ws := extendSchedule (toWords chunk) 48
  let r := (shaK.zip ws).foldl roundStep st
  ⟨w32 (st.a + r.a), w32 (st.b + r.b), w32 (st.c + r.c), w32 (st.d + r.d),
   w32 (st.e + r.e), w32 (st.f + r.f), w32 (st.g + r.g), w32 (st.h + r.h)⟩

/-- Big-endian eight-byte encoding of a length in bits. -/
def lenBytes8 (n : Nat) : List Nat :=
  [n >>> 56 % 256, n >>> 48 % 256, n >>> 40 % 256, n >>> 32 % 256,
   n >>> 24 % 256, n >>> 16 % 256, n >>> 8 % 256, n % 256]

/-- SHA-256 padding: a 0x80 byte, zeros to 56 mod 64, and the bit length. -/
def shaPad (msg : List Nat) : List Nat :=
  let padLen := (119 - msg.length % 64) % 64
  msg ++ 128 :: List.replicate padLen 0 ++ lenBytes8 (msg.length * 8)

/-- Fuel-driven split into 64-byte chunks; the fuel bounds the chunk count. -/
def chunksGo : Nat → List Nat → List (List Nat)
  | 0, _ => []
  | _, [] => []
  | fuel + 1, l => l.take 64 :: chunksGo fuel (l.drop 64)

/-- Split of a byte list into 64-byte chunks. -/
def chunk64 (l : List Nat) : List (List Nat) := chunksGo l.length l

/-- Big-endian four-byte encoding of a 32-bit word. -/
def wordBytes (x : Nat) : List Nat := [x >>> 24 % 256, x >>> 16 % 256, x >>> 8 % 256, x % 256]

/-- SHA-256 of a byte list, as the 32 digest bytes. -/
def sha256 (msg : List Nat) : List Nat :=
  let fin := (chunk64 (shaPad msg)).foldl compress shaInit
  wordBytes fin.a ++ wordBytes fin.b ++ wordBytes fin.c ++ wordBytes fin.d ++
  wordBytes fin.e ++ wordBytes fin.f ++ wordBytes fin.g ++ wordBytes fin.h

/-- HMAC-SHA-256 with the standard 64-byte block, as hmac.new in Python. -/
def hmacSha256 (key msg : List Nat) : List Nat :=
  let k0 := if 64 < key.length then sha256 key else key
  let kp := k0 ++ List.replicate (64 - k0.length) 0
  let ip := kp.map (fun b => b ^^^ 54)
  let op := kp.map (fun b => b ^^^ 92)
  sha256 (op ++ sha256 (ip ++ msg))

/-- Uppercase hexadecimal digit characters. -/
def hexChar (n : Nat) : Char := "0123456789ABCDEF".toList.getD n (Char.ofNat 48)

/-- Uppercase hexadecimal encoding of a byte list, as hexdigest().upper(). -/
def hexUpper (bytes : List Nat) : String :=
  String.mk (bytes.foldr (fun b acc => hexChar (b / 16) :: hexChar (b % 16) :: acc) [])

/-- UTF-8 encoding of one character as bytes. -/
def utf8Char (c : Char) : List Nat :=
  let n := c.toNat
  if n < 128 then [n]
  else if n < 2048 then [192 + n / 64, 128 + n % 64]
  else if n < 65536 then [224 + n / 4096, 128 + n / 64 % 64, 128 + n % 64]
  else [240 + n / 262144, 128 + n / 4096 % 64, 128 + n / 64 % 64, 128 + n % 64]

/-- UTF-8 encoding of a string as bytes, as str.encode in Python. -/
def utf8 (s : String) : List Nat := (s.data.map utf8Char).flatten

/-- The SHA-256 digest always has exactly 32 bytes. -/
theorem sha256_length (msg : List Nat) : (sha256 msg).length = 32 := by
  simp [sha256, wordBytes]

/-- The HMAC-SHA-256 digest always has exactly 32 bytes. -/
theorem hmacSha256_length (key msg : List Nat) : (hmacSha256 key msg).length = 32 :=
  sha256_length _

/-- The hexadecimal encoding has two characters per byte. -/
theorem hexUpper_length (bytes : List Nat) : (hexUpper bytes).length = 2 * bytes.length := by
  induction bytes with
  | nil => rfl
  | cons b rest ih =>
    simp only [hexUpper, List.foldr, String.length] at ih ⊢
    simp only [List.length_cons] at ih ⊢
    omega

/-! ## String ordering and key sorting

Python sorted() on string keys compares by Unicode code point, which for
UTF-8 encoded strings coincides with byte order. `charsLe` is that order on
the character lists behind Lean strings.
-/

/-- Lexicographic code-point comparison of character lists. -/
def charsLe : List Char → List Char → Bool
  | [], _ => true
  | _ :: _, [] => false
  | a :: as, b :: bs =>
      if a.toNat < b.toNat then true
      else if b.toNat < a.toNat then false
      else charsLe as bs

/-- Lexicographic code-point comparison of strings, the order of sorted(). -/
def strLe (a b : String) : Bool := charsLe a.data b.data

/-- The comparison as a proposition, for the sorting lemmas. -/
def strLeP (a b : String) : Prop := strLe a b = true

instance : DecidableRel strLeP := fun a b => instDecidableEqBool (strLe a b) true

/-- Unfolding equation for the comparison on nonempty lists. -/
theorem charsLe_cons (x y : Char) (xs ys : List Char) :
    charsLe (x :: xs) (y :: ys) =
      (if x.toNat < y.toNat then true
       else if y.toNat < x.toNat then false
       else charsLe xs ys) := rfl

/-- The comparison is total. -/
theorem charsLe_total (a b : List Char) : charsLe a b = true ∨ charsLe b a = true := by
  induction a generalizing b with
  | nil => left; rfl
  | cons x xs ih =>
    cases b with
    | nil => right; rfl
    | cons y ys =>
      rw [charsLe_cons, charsLe_cons]
      by_cases hxy : x.toNat < y.toNat
      · left; rw [if_pos hxy]
      · by_cases hyx : y.toNat < x.toNat
        · right; rw [if_pos hyx]
        · rw [if_neg hxy, if_neg hyx, if_neg hyx, if_neg hxy]
          exact ih ys

/-- The comparison is transitive. -/
theorem charsLe_trans {a b c : List Char} (h1 : charsLe a b = true) (h2 : charsLe b c = true) :
    charsLe a c = true := by
  induction a generalizing b c with
  | nil => rfl
  | cons x xs ih =>
    cases b with
    | nil => exact absurd h1 (by simp [charsLe])
    | cons y ys =>
      cases c with
      | nil => exact absurd h2 (by simp [charsLe])
      | cons z zs =>
        rw [charsLe_cons] at h1 h2 ⊢
        by_cases hxy : x.toNat < y.toNat <;> by_cases hyz : y.toNat < z.toNat
        · rw [if_pos (show x.toNat < z.toNat by omega)]
        · rw [if_neg hyz] at h2
          by_cases hzy : z.toNat < y.toNat
          · rw [if_pos hzy] at h2; exact absurd h2 (by simp)
          · rw [if_pos (show x.toNat < z.toNat by omega)]
        · rw [if_neg hxy] at h1
          by_cases hyx : y.toNat < x.toNat
          · rw [if_pos hyx] at h1; exact absurd h1 (by simp)
          · rw [if_pos (show x.toNat < z.toNat by omega)]
        · rw [if_neg hxy] at h1
          rw [if_neg hyz] at h2
          by_cases hyx : y.toNat < x.toNat
          · rw [if_pos hyx] at h1; exact absurd h1 (by simp)
          · by_cases hzy : z.toNat < y.toNat
            · rw [if_pos hzy] at h2; exact absurd h2 (by simp)
            · rw [if_neg hyx] at h1
              rw [if_neg hzy] at h2
              rw [if_neg (show ¬ x.toNat < z.toNat by omega),
                  if_neg (show ¬ z.toNat < x.toNat by omega)]
              exact ih h1 h2

/-- Characters with the same code point are equal. -/
theorem char_eq_of_toNat_eq {x y : Char} (h : x.toNat = y.toNat) : x = y := by
  have h2 := congrArg Char.ofNat h
  rwa [Char.ofNat_toNat, Char.ofNat_toNat] at h2

/-- The comparison is antisymmetric. -/
theorem charsLe_antisymm {a b : List Char} (h1 : charsLe a b = true) (h2 : charsLe b a = true) :
    a = b := by
  induction a generalizing b with
  | nil =>
    cases b with
    | nil => rfl
    | cons y ys => exact absurd h2 (by simp [charsLe])
  | cons x xs ih =>
    cases b with
    | nil => exact absurd h1 (by simp [charsLe])
    | cons y ys =>
      rw [charsLe_cons] at h1 h2
      by_cases hxy : x.toNat < y.toNat
      · rw [if_neg (show ¬ y.toNat < x.toNat by omega)] at h2
        rw [if_pos hxy] at h2
        exact absurd h2 (by simp)
      · by_cases hyx : y.toNat < x.toNat
        · rw [if_neg hxy, if_pos hyx] at h1
          exact absurd h1 (by simp)
        · rw [if_neg hxy, if_neg hyx] at h1
          rw [if_neg hyx, if_neg hxy] at h2
          rw [char_eq_of_toNat_eq (show x.toNat = y.toNat by omega), ih h1 h2]

instance : IsTotal String strLeP := ⟨fun a b => charsLe_total a.data b.data⟩

instance : IsTrans String strLeP := ⟨fun _ _ _ => charsLe_trans⟩

instance : IsAntisymm String strLeP :=
  ⟨fun a b h1 h2 => by
    cases a; cases b
    exact congrArg String.mk (charsLe_antisymm h1 h2)⟩

/-- Sorting of a key list, modelling sorted(parameters.keys()) in Python. -/
def sortKeys (l : List String) : List String := List.insertionSort strLeP l

/-- Sorting is insensitive to the order in which the keys arrive. -/
theorem sortKeys_eq_of_perm {l1 l2 : List String} (h : l1.Perm l2) :
    sortKeys l1 = sortKeys l2 :=
  @List.eq_of_perm_of_sorted String strLeP _ _ _
    (((List.perm_insertionSort strLeP l1).trans h).trans
      (List.perm_insertionSort strLeP l2).symm)
    (List.sorted_insertionSort strLeP l1)
    (List.sorted_insertionSort strLeP l2)

/-! ## Association lists as Python dictionaries -/

/-- Value of a key in a parameter dictionary; Python indexing parameters[key]
is only reached for keys of the dictionary, so the default is never the value
observed by the modelled code on faithful inputs. -/
def lookupStr (d : List (String × String)) (k : String) : String :=
  (List.lookup k d).getD ""

/-- Lookup at a cons cell, phrased with an if-then-else. -/
theorem lookup_cons_ite {β : Type} (a k : String) (b : β) (es : List (String × β)) :
    List.lookup a ((k, b) :: es) = if a == k then some b else List.lookup a es := by
  cases h : a == k <;> simp [List.lookup_cons, h]

/-- A successful lookup points at an entry of the list. -/
theorem mem_of_lookup {β : Type} {l : List (String × β)} {k : String} {b : β}
    (h : List.lookup k l = some b) : (k, b) ∈ l := by
  obtain ⟨l1, l2, rfl, -⟩ := List.lookup_eq_some_iff.mp h
  simp

/-- Dictionary lookup is unchanged under permutation when keys are distinct. -/
theorem lookup_perm_eq {β : Type} {p1 p2 : List (String × β)} (h : p1.Perm p2)
    (hnd : (p1.map Prod.fst).Nodup) (k : String) : List.lookup k p1 = List.lookup k p2 := by
  induction h with
  | nil => rfl
  | cons x h ih =>
    simp only [List.map_cons, List.nodup_cons] at hnd
    rcases x with ⟨a, b⟩
    rw [lookup_cons_ite, lookup_cons_ite]
    by_cases hk : (k == a) = true
    · rw [if_pos hk, if_pos hk]
    · rw [if_neg hk, if_neg hk]
      exact ih hnd.2
  | swap x y l =>
    rcases x with ⟨a, b⟩
    rcases y with ⟨c, d⟩
    have hca : c ≠ a := by
      simp only [List.map_cons, List.nodup_cons, List.mem_cons] at hnd
      exact fun he => hnd.1 (Or.inl he)
    rw [lookup_cons_ite, lookup_cons_ite, lookup_cons_ite, lookup_cons_ite]
    by_cases h1 : (k == c) = true <;> by_cases h2 : (k == a) = true
    · exact absurd ((eq_of_beq h1).symm.trans (eq_of_beq h2)) hca
    · simp [h1, h2]
    · simp [h1, h2]
    · simp [h1, h2]
  | trans h1 h2 ih1 ih2 =>
    exact (ih1 hnd).trans (ih2 ((h1.map Prod.fst).nodup_iff.mp hnd))

/-- Keys with distinct names map to distinct values in a dictionary whose
values are also pairwise distinct. -/
theorem lookup_ne_of_nodup {t : List (String × String)}
    (hv : (t.map Prod.snd).Nodup) {k1 k2 w1 w2 : String} (hk : k1 ≠ k2)
    (h1 : List.lookup k1 t = some w1) (h2 : List.lookup k2 t = some w2) : w1 ≠ w2 := by
  intro he
  subst he
  have hm1 : (k1, w1) ∈ t := mem_of_lookup h1
  have hm2 : (k2, w1) ∈ t := mem_of_lookup h2
  have h3 := List.inj_on_of_nodup_map hv hm1 hm2 rfl
  exact hk (congrArg Prod.fst h3)

/-! ## The Signer: sign from sdk/api/base.py lines 42 to 69 -/

/-- The string that sign hashes, built exactly as the Python function builds
parameters_str: keys sorted, key and value concatenated with no separator,
and the api name prepended exactly when it contains a slash. -/
def signParametersStr (api : String) (parameters : List (String × String)) : String :=
  let sortedKeys := sortKeys (parameters.map Prod.fst)
  if api.data.contains '/' then
    api ++ String.join (sortedKeys.map (fun key => key ++ lookupStr parameters key))
  else
    String.join (sortedKeys.map (fun key => key ++ lookupStr parameters key))

/-- The sign function of sdk/api/base.py: uppercase hexadecimal HMAC-SHA-256
of the canonical parameter string, keyed by the app secret. -/
def sign (secret api : String) (parameters : List (String × String)) : String :=
  hexUpper (hmacSha256 (utf8 secret) (utf8 (signParametersStr api parameters)))

/-- Canonical string as the spec words it in sections 4.1 and 6: sort the
parameter keys lexicographically, concatenate key plus value in sorted order
with no separators, and prepend the endpoint name exactly when the endpoint
name contains a path-separator character. -/
def specCanonicalString (endpointName : String) (parameters : List (String × String)) : String :=
  let sorted := sortKeys (parameters.map Prod.fst)
  let concatenated := String.join (sorted.map (fun k => k ++ lookupStr parameters k))
  if endpointName.data.contains '/' then endpointName ++ concatenated else concatenated

/-- Signature as the spec words it: uppercase hexadecimal of the keyed hash
of the canonical string, with the secret as key. -/
def specSign (secret endpointName : String) (parameters : List (String × String)) : String :=
  hexUpper (hmacSha256 (utf8 secret) (utf8 (specCanonicalString endpointName parameters)))

/-- Claim C2: sign equals the uppercase hexadecimal HMAC-SHA-256, keyed by the
secret, of the concatenation of key plus value pairs in lexicographic key
order with no separators, prefixed by the endpoint name exactly when the
endpoint name contains a slash; for the empty mapping the hashed string is
just that prefix, or the empty string, and the call returns a signature of 64
characters, in particular a non-empty one. -/
theorem c2_sign_canonicalization (secret api : String) (parameters : List (String × String)) :
    sign secret api parameters = specSign secret api parameters
    ∧ signParametersStr api [] = (if api.data.contains '/' then api else "")
    ∧ (sign secret api []).length = 64
    ∧ sign secret api [] ≠ "" := by
  refine ⟨?_, ?_, ?_, ?_⟩
  · unfold sign specSign signParametersStr specCanonicalString
    split <;> rfl
  · unfold signParametersStr sortKeys
    split
    · simp only [List.map_nil]
      rw [show String.join (List.map (fun key => key ++ lookupStr [] key)
            (List.insertionSort strLeP [])) = "" from rfl]
      exact String.append_empty _
    · rfl
  · unfold sign
    rw [hexUpper_length, hmacSha256_length]
  · intro he
    have hlen : (sign secret api []).length = 64 := by
      unfold sign
      rw [hexUpper_length, hmacSha256_length]
    rw [he] at hlen
    exact absurd hlen (by decide)

/-- Witness for C2 at a concrete input: the OAuth-style endpoint name contains
a slash, so the canonical string carries the endpoint prefix there. -/
theorem c2_sign_canonicalization_witness :
    sign "app-secret" "/auth/token/create" [("code", "abc")] =
      specSign "app-secret" "/auth/token/create" [("code", "abc")]
    ∧ sign "app-secret" "/auth/token/create" [] ≠ "" :=
  ⟨(c2_sign_canonicalization "app-secret" "/auth/token/create" [("code", "abc")]).1,
   (c2_sign_canonicalization "app-secret" "/auth/token/create" []).2.2.2⟩

/-- Claim C9: sign is deterministic and insertion-order independent; on two
parameter lists that are permutations of each other with pairwise distinct
keys it returns the identical signature, because the keys are sorted and the
values are read off the same mapping. Determinism itself is structural: sign
is a pure function of its arguments. -/
theorem c9_sign_order_independent (secret api : String)
    (p1 p2 : List (String × String)) (hperm : p1.Perm p2)
    (hnd : (p1.map Prod.fst).Nodup) :
    sign secret api p1 = sign secret api p2 := by
  have hkeys : sortKeys (p1.map Prod.fst) = sortKeys (p2.map Prod.fst) :=
    sortKeys_eq_of_perm (hperm.map Prod.fst)
  have hlook : ∀ k, lookupStr p1 k = lookupStr p2 k := fun k => by
    unfold lookupStr
    rw [lookup_perm_eq hperm hnd k]
  unfold sign signParametersStr
  rw [hkeys]
  simp only [hlook]

/-- Witness for C9: permuting two concrete parameter entries leaves the
signature unchanged. -/
theorem c9_sign_order_independent_witness :
    ([("b", "2"), ("a", "1")] : List (String × String)).Perm [("a", "1"), ("b", "2")]
    ∧ sign "sec" "aliexpress.ds.text.search" [("b", "2"), ("a", "1")] =
        sign "sec" "aliexpress.ds.text.search" [("a", "1"), ("b", "2")] :=
  ⟨by decide,
   c9_sign_order_independent "sec" "aliexpress.ds.text.search" _ _ (by decide) (by decide)⟩

/-! ## The Dispatcher: getResponse from sdk/api/base.py lines 148 to 242

The Python method first assembles sys_parameters, adds the access token to
them when authrize is not None, copies them, merges the application
parameters into the copy, and only then computes the signature over that
merged dictionary. The token is therefore part of the signed string.
-/

/-- The partner id constant SYSTEM_GENERATE_VERSION of sdk/api/base.py. -/
def SYSTEM_GENERATE_VERSION : String := "iop-sdk-python-20220609"

/-- Python dict.update: entries of the first dictionary keep their place,
with values overridden by the second dictionary where keys coincide, and
entries of the second dictionary with new keys are appended. -/
def dictUpdate (d1 d2 : List (String × String)) : List (String × String) :=
  d1.map (fun p => match List.lookup p.1 d2 with
    | some v => (p.1, v)
    | none => p) ++
  d2.filter (fun p => (List.lookup p.1 d1).isNone)

/-- The sys_parameters dictionary of getResponse, including the access token
exactly when an authrize value is supplied, in Python insertion order. -/
def sysParameters (appKey apiname timestamp : String) (authrize : Option String) :
    List (String × String) :=
  let base := [("format", "json"), ("app_key", appKey), ("sign_method", "sha256"),
               ("timestamp", timestamp), ("partner_id", SYSTEM_GENERATE_VERSION),
               ("method", apiname)]
  match authrize with
  | some token => base ++ [("access_token", token)]
  | none => base

/-- The dictionary getResponse signs: sys_parameters, with the token already
inside when supplied, merged with the application parameters. -/
def signedParameterSet (appKey apiname timestamp : String) (authrize : Option String)
    (applicationParameter : List (String × String)) : List (String × String) :=
  dictUpdate (sysParameters appKey apiname timestamp authrize) applicationParameter

/-- The signature getResponse attaches as the sign system parameter. -/
def attachedSignature (secret appKey apiname timestamp : String) (authrize : Option String)
    (applicationParameter : List (String × String)) : String :=
  sign secret apiname (signedParameterSet appKey apiname timestamp authrize applicationParameter)

/-- An entry of the first dictionary survives dict.update unchanged when the
second dictionary does not bind its key. -/
theorem mem_dictUpdate_left {d1 d2 : List (String × String)} {k v : String}
    (hm : (k, v) ∈ d1) (hk : List.lookup k d2 = none) : (k, v) ∈ dictUpdate d1 d2 := by
  unfold dictUpdate
  refine List.mem_append_left _ ?_
  have hf : (fun p : String × String => match List.lookup p.1 d2 with
      | some v => (p.1, v)
      | none => p) (k, v) = (k, v) := by
    simp [hk]
  exact hf ▸ List.mem_map_of_mem _ hm

/-- Claim C1 counterexample: in getResponse the access token is added to
sys_parameters before the signing copy is taken, so the attached signature
differs from the Signer applied to the token-free union, and changing the
bearer token changes the signature. Both facts are shown at concrete inputs
by computing the digests. -/
theorem c1_counterexample :
    attachedSignature "s" "k" "a.b" "1" (some "t") []
      ≠ sign "s" "a.b" (signedParameterSet "k" "a.b" "1" none [])
    ∧ attachedSignature "s" "k" "a.b" "1" (some "t") []
      ≠ attachedSignature "s" "k" "a.b" "1" (some "u") [] := by
  constructor
  · decide
  · decide

/-- Claim C1 as amended: the signature the Dispatcher attaches equals the
Signer applied to the union of system and application parameters where the
system parameters already INCLUDE the supplied access token; the token is
part of the signed set whenever the application parameters do not bind the
access_token key themselves. -/
theorem c1_corrected (secret appKey apiname timestamp token : String)
    (app : List (String × String)) (hfree : List.lookup "access_token" app = none) :
    attachedSignature secret appKey apiname timestamp (some token) app
      = sign secret apiname (signedParameterSet appKey apiname timestamp (some token) app)
    ∧ ("access_token", token) ∈ signedParameterSet appKey apiname timestamp (some token) app := by
  refine ⟨rfl, ?_⟩
  apply mem_dictUpdate_left _ hfree
  unfold sysParameters
  simp

/-- Witness for the amended C1 at a concrete input. -/
theorem c1_corrected_witness :
    List.lookup "access_token" ([] : List (String × String)) = none
    ∧ attachedSignature "s" "k" "a.b" "1" (some "t") []
        = sign "s" "a.b" (signedParameterSet "k" "a.b" "1" (some "t") [])
    ∧ ("access_token", "t") ∈ signedParameterSet "k" "a.b" "1" (some "t") [] :=
  ⟨rfl, (c1_corrected "s" "k" "a.b" "1" "t" [] rfl).1,
   (c1_corrected "s" "k" "a.b" "1" "t" [] rfl).2⟩

/-! ## JSON values and the Python exception taxonomy

`JValue` models decoded JSON; `JValue.null` is the Python value None.
`PyError` models the exception classes the pipeline can raise: TopException
and RequestException from sdk/api/base.py, AttributeError from the Python
runtime, and ApiRequestException and ApiRequestResponseException from the
errors module of the package.
-/

inductive JValue where
  | null : JValue
  | bool (b : Bool) : JValue
  | num (n : Int) : JValue
  | str (s : String) : JValue
  | arr (elems : List JValue) : JValue
  | obj (entries : List (String × JValue)) : JValue

/-- Comma-space separated concatenation, as inside a Python repr of a list. -/
def joinComma : List String → String
  | [] => ""
  | [s] => s
  | s :: rest => s ++ ", " ++ joinComma rest

mutual

/-- Python repr of a JSON-decoded value, as far as the message strings of the
modelled code need it: None, booleans, integers, single-quoted strings, lists
and dictionaries. -/
def pyRepr : JValue → String
  | .null => "None"
  | .bool true => "True"
  | .bool false => "False"
  | .num n => toString n
  | .str s => "\x27" ++ s ++ "\x27"
  | .arr xs => "[" ++ joinComma (pyReprList xs) ++ "]"
  | .obj es => "\x7b" ++ joinComma (pyReprEntries es) ++ "\x7d"

def pyReprList : List JValue → List String
  | [] => []
  | v :: rest => pyRepr v :: pyReprList rest

def pyReprEntries : List (String × JValue) → List String
  | [] => []
  | (k, v) :: rest => ("\x27" ++ k ++ "\x27: " ++ pyRepr v) :: pyReprEntries rest

end

/-- Python str of a JSON-decoded value, as used by an f-string: a string
renders as its contents, everything else as its repr. -/
def pyStr : JValue → String
  | .str s => s
  | v => pyRepr v

/-- The Python type name of a JSON-decoded value. -/
def pyTypeName : JValue → String
  | .null => "NoneType"
  | .bool _ => "bool"
  | .num _ => "int"
  | .str _ => "str"
  | .arr _ => "list"
  | .obj _ => "dict"

/-- The AttributeError message the Python runtime raises when .get is called
on a value that is not a dictionary. -/
def pyAttrMsg (v : JValue) (attr : String) : String :=
  "\x27" ++ pyTypeName v ++ "\x27 object has no attribute \x27" ++ attr ++ "\x27"

/-- Python dict.get on a JSON object: the value of the key when present,
collapsed to none when that value is null, because a present null field and
an absent field are the same Python value None. -/
def jGet (d : List (String × JValue)) (k : String) : Option JValue :=
  match List.lookup k d with
  | some JValue.null => none
  | some v => some v
  | none => none

inductive PyError where
  | topException (errorcode message subcode submsg : Option JValue)
      (applicationHost serviceHost : String)
  | requestException (msg : String)
  | attributeError (msg : String)
  | apiRequestException (arg : Option JValue)
  | apiRequestResponseException (msg : String)

/-- The Python exception class of a modelled error. -/
def pyErrorClass : PyError → String
  | .topException _ _ _ _ _ _ => "TopException"
  | .requestException _ => "RequestException"
  | .attributeError _ => "AttributeError"
  | .apiRequestException _ => "ApiRequestException"
  | .apiRequestResponseException _ => "ApiRequestResponseException"

/-! ## The Dispatcher response handling: getResponse lines 218 to 242

The network call itself is external input and output; the embedding takes
the HTTP status code, the raw body text, the decoded JSON body as an object,
and the two routing headers, and models everything getResponse does with
them: the status check and the error_response check.
-/

/-- Response handling of getResponse: a RequestException carrying status and
body exactly when the status differs from 200, then the error_response check
building a TopException from code, msg, sub_code, sub_msg and the two host
headers, and otherwise the parsed body returned unchanged. -/
def getResponseHandle (statusCode : Nat) (bodyText : String)
    (bodyJson : List (String × JValue)) (applicationHost serviceHost : String) :
    Except PyError (List (String × JValue)) :=
  if statusCode ≠ 200 then
    .error (.requestException ("HTTP " ++ toString statusCode ++ ": " ++ bodyText))
  else
    match List.lookup "error_response" bodyJson with
    | some (JValue.obj err) =>
        .error (.topException (jGet err "code") (jGet err "msg")
          (jGet err "sub_code") (jGet err "sub_msg") applicationHost serviceHost)
    | some v => .error (.attributeError (pyAttrMsg v "get"))
    | none => .ok bodyJson

/-- Transport-error discriminator: a RequestException outcome. -/
def isTransportError : Except PyError (List (String × JValue)) → Bool
  | .error (.requestException _) => true
  | _ => false

/-! ## The Envelope Unwrapper: api_request from helpers/requests.py -/

/-- The chain of dict.get calls with get defaults, as in lines 61 to 64 and
66 to 69 of helpers/requests.py: the value of the first PRESENT key among the
three, with no skipping of present null values. -/
def getChain3 (d : List (String × JValue)) (k1 k2 k3 : String) : Option JValue :=
  match List.lookup k1 d with
  | some v => some v
  | none =>
    match List.lookup k2 d with
    | some v => some v
    | none => List.lookup k3 d

/-- Collapse of a present null to the Python value None. -/
def pyOptNone : Option JValue → Option JValue
  | some JValue.null => none
  | o => o

/-- The inner_code value of api_request: the value of the first present key
among resp_code, rsp_code and code, as a Python value. -/
def innerCodePy (inner : List (String × JValue)) : Option JValue :=
  pyOptNone (getChain3 inner "resp_code" "rsp_code" "code")

/-- The inner_msg value of api_request: the value of the first present key
among resp_msg, rsp_msg and msg, with the literal default otherwise. -/
def innerMsgPy (inner : List (String × JValue)) : JValue :=
  (getChain3 inner "resp_msg" "rsp_msg" "msg").getD (JValue.str "Unknown error")

/-- Membership test against the success tuple of the Python code, which
compares with Python equality: the strings 0, 200 and success, the numbers 0
and 200, and the boolean False, which equals 0 in Python. -/
def successCode : JValue → Bool
  | .str s => s == "0" || s == "200" || s == "success"
  | .num n => n == 0 || n == 200
  | .bool b => b == false
  | _ => false

/-- Payload extraction of api_request lines 72 to 84: the value of the first
present key among resp_result, result and data, the inner object itself when
none is present, then one more unwrap level when the extracted payload is a
dictionary containing a result key. -/
def extractResult (inner : List (String × JValue)) : JValue :=
  let r0 :=
    match List.lookup "resp_result" inner with
    | some v => v
    | none =>
      match List.lookup "result" inner with
      | some v => v
      | none =>
        match List.lookup "data" inner with
        | some v => v
        | none => JValue.obj inner
  match r0 with
  | JValue.obj m =>
    match List.lookup "result" m with
    | some v => v
    | none => JValue.obj m
  | v => v

/-- The message of the missing-key ResponseShapeError branch, line 54 to 56:
the response key and the Python repr of the list of available top-level
keys. -/
def shapeErrorMsg (response : List (String × JValue)) (responseName : String) : String :=
  "Response key \x27" ++ responseName ++ "\x27 not found. Available: " ++
    pyRepr (JValue.arr (response.map (fun p => JValue.str p.1)))

/-- The missing-key branch of the unwrapping, lines 48 to 56: a provider
error built from the top-level code and msg when a non-success code is
present, and otherwise the shape error listing the available keys; both are
raised as ApiRequestResponseException. -/
def unwrapMissing (response : List (String × JValue)) (responseName : String) :
    Except PyError JValue :=
  match List.lookup "code" response with
  | some c =>
    if successCode c = false then
      .error (.apiRequestResponseException ("API Error " ++ pyStr c ++ ": " ++
        pyStr ((List.lookup "msg" response).getD (JValue.str "Unknown error"))))
    else
      .error (.apiRequestResponseException (shapeErrorMsg response responseName))
  | none => .error (.apiRequestResponseException (shapeErrorMsg response responseName))

/-- The inner-object branch of the unwrapping: the inner code check of lines
60 to 70 followed by the payload extraction of lines 72 to 84. -/
def unwrapInner (inner : List (String × JValue)) : Except PyError JValue :=
  match innerCodePy inner with
  | some c =>
    if successCode c = false then
      .error (.apiRequestResponseException ("API Error " ++ pyStr c ++ ": " ++
        pyStr (innerMsgPy inner)))
    else
      .ok (extractResult inner)
  | none => .ok (extractResult inner)

/-- Envelope unwrapping of api_request lines 47 to 94, for a decoded response
object. The final SimpleNamespace conversion of the Python code is a
content-preserving re-representation of the payload, so the embedding
returns the payload itself. A non-dictionary inner value makes the .get call
raise AttributeError, which the outer handler rewraps as
ApiRequestResponseException of its text. -/
def unwrapResponse (response : List (String × JValue)) (responseName : String) :
    Except PyError JValue :=
  match List.lookup responseName response with
  | none => unwrapMissing response responseName
  | some (JValue.obj inner) => unwrapInner inner
  | some v => .error (.apiRequestResponseException (pyAttrMsg v "get"))

/-- The dispatch-failure rewrap of api_request lines 39 to 45: any exception
from getResponse becomes an ApiRequestException whose argument is the message
attribute when the exception has one, and the str rendering of the exception
otherwise. TopException is the only raisable class with a message attribute.
The two api exception constructors are not raisable by getResponse and follow
the str branch, with str of a one-argument exception rendering its
argument. -/
def wrapDispatchError : PyError → PyError
  | .topException _ m _ _ _ _ => .apiRequestException m
  | .requestException s => .apiRequestException (some (JValue.str s))
  | .attributeError s => .apiRequestException (some (JValue.str s))
  | .apiRequestException a => .apiRequestException (some (JValue.str (pyStr (a.getD JValue.null))))
  | .apiRequestResponseException m => .apiRequestException (some (JValue.str m))

/-- The api_request pipeline of helpers/requests.py on the outcome of the
dispatch: a failed dispatch is rewrapped by wrapDispatchError, a successful
one is unwrapped. -/
def api_request (dispatched : Except PyError (List (String × JValue)))
    (responseName : String) : Except PyError JValue :=
  match dispatched with
  | .error e => .error (wrapDispatchError e)
  | .ok response => unwrapResponse response responseName

/-- Claim C8 counterexample: HTTP status 201 is a 2xx success status, yet
getResponse raises its transport error for it, because the code compares the
status against exactly 200. -/
theorem c8_counterexample :
    getResponseHandle 201 "created" [] "" ""
      = .error (.requestException "HTTP 201: created")
    ∧ 200 ≤ 201 ∧ 201 < 300 := by
  refine ⟨rfl, by omega, by omega⟩

/-- Claim C8 as amended: getResponse raises RequestException carrying the
status code and raw body text in its message exactly when the HTTP status
differs from 200; on status 200 it never raises a transport error and
proceeds to the JSON error_response check. -/
theorem c8_corrected (statusCode : Nat) (bodyText : String)
    (bodyJson : List (String × JValue)) (applicationHost serviceHost : String) :
    (isTransportError
        (getResponseHandle statusCode bodyText bodyJson applicationHost serviceHost) = true
      ↔ statusCode ≠ 200)
    ∧ (statusCode ≠ 200 →
        getResponseHandle statusCode bodyText bodyJson applicationHost serviceHost
          = .error (.requestException ("HTTP " ++ toString statusCode ++ ": " ++ bodyText))) := by
  constructor
  · constructor
    · intro ht he
      subst he
      unfold getResponseHandle at ht
      rw [if_neg (by omega : ¬ (200 : Nat) ≠ 200)] at ht
      rcases hl : List.lookup "error_response" bodyJson with _ | v
      · rw [hl] at ht
        simp [isTransportError] at ht
      · rw [hl] at ht
        cases v <;> simp [isTransportError] at ht
    · intro hn
      unfold getResponseHandle isTransportError
      rw [if_pos hn]
  · intro hn
    unfold getResponseHandle
    rw [if_pos hn]

/-- Witness for the amended C8: a simulated HTTP 500 surfaces as the
transport error with status and body in the message. -/
theorem c8_corrected_witness :
    getResponseHandle 500 "oops" [] "" "" = .error (.requestException "HTTP 500: oops") :=
  (c8_corrected 500 "oops" [] "" "").2 (by omega)

/-- The inner object of the C3 counterexample: the first checked key
resp_code is present with a null value, which stops the Python get chain,
while a later key code carries a failing value. -/
def c3inner : List (String × JValue) :=
  [("resp_code", JValue.null), ("code", JValue.str "15"), ("msg", JValue.str "boom")]

/-- The inner error code as claim C3 words it: the first non-None value among
resp_code, rsp_code and code, skipping keys whose value is None. -/
def specInnerCode (inner : List (String × JValue)) : Option JValue :=
  match jGet inner "resp_code" with
  | some v => some v
  | none =>
    match jGet inner "rsp_code" with
    | some v => some v
    | none => jGet inner "code"

/-- Claim C3 counterexample: on an inner object whose resp_code is null and
whose code is the failing value 15, the first non-None value of the claim is
15, which lies outside the success set, so the claim demands ProviderError;
the code instead stops the get chain at the present resp_code key, sees the
Python value None, raises nothing, and returns the inner object as the
payload. -/
theorem c3_counterexample :
    specInnerCode c3inner = some (JValue.str "15")
    ∧ successCode (JValue.str "15") = false
    ∧ unwrapResponse [("foo_response", JValue.obj c3inner)] "foo_response"
        = .ok (JValue.obj c3inner) :=
  ⟨rfl, rfl, rfl⟩

/-- Claim C3 as amended: the inner error code is the value of the first
PRESENT key among resp_code, rsp_code and code, where a present null value
counts as no code at all; api_request raises ApiRequestResponseException
exactly when that value exists and lies outside the success set, with the
message built from the code and from the value of the first present key
among resp_msg, rsp_msg and msg. -/
theorem c3_corrected (response : List (String × JValue)) (responseName : String)
    (inner : List (String × JValue))
    (hin : List.lookup responseName response = some (JValue.obj inner)) :
    (∀ c, innerCodePy inner = some c → successCode c = false →
        unwrapResponse response responseName
          = .error (.apiRequestResponseException
              ("API Error " ++ pyStr c ++ ": " ++ pyStr (innerMsgPy inner))))
    ∧ (∀ c, innerCodePy inner = some c → successCode c = true →
        unwrapResponse response responseName = .ok (extractResult inner))
    ∧ (innerCodePy inner = none →
        unwrapResponse response responseName = .ok (extractResult inner)) := by
  refine ⟨?_, ?_, ?_⟩
  · intro c hc hs
    unfold unwrapResponse
    rw [hin]
    show unwrapInner inner = _
    unfold unwrapInner
    rw [hc]
    show (if successCode c = false then _ else _) = _
    rw [if_pos hs]
  · intro c hc hs
    unfold unwrapResponse
    rw [hin]
    show unwrapInner inner = _
    unfold unwrapInner
    rw [hc]
    show (if successCode c = false then _ else _) = _
    rw [if_neg (by simp [hs])]
  · intro hc
    unfold unwrapResponse
    rw [hin]
    show unwrapInner inner = _
    unfold unwrapInner
    rw [hc]

/-- Witness for the amended C3 at the error scenario of the spec: code 15
with message boom raises the provider error with exactly that code and
message in its text. -/
theorem c3_corrected_witness :
    List.lookup "foo_response"
        [("foo_response", JValue.obj [("code", JValue.str "15"), ("msg", JValue.str "boom")])]
      = some (JValue.obj [("code", JValue.str "15"), ("msg", JValue.str "boom")])
    ∧ unwrapResponse
        [("foo_response", JValue.obj [("code", JValue.str "15"), ("msg", JValue.str "boom")])]
        "foo_response"
      = .error (.apiRequestResponseException "API Error 15: boom") :=
  ⟨rfl,
   (c3_corrected
      [("foo_response", JValue.obj [("code", JValue.str "15"), ("msg", JValue.str "boom")])]
      "foo_response"
      [("code", JValue.str "15"), ("msg", JValue.str "boom")] rfl).1
     (JValue.str "15") rfl rfl⟩

/-- The payload as claim C4 words it: the value of the first present key
among resp_result, result and data, in that order, and the inner object
itself when none is present. -/
def specSelectPayload (inner : List (String × JValue)) : JValue :=
  match List.lookup "resp_result" inner with
  | some v => v
  | none =>
    match List.lookup "result" inner with
    | some v => v
    | none =>
      match List.lookup "data" inner with
      | some v => v
      | none => JValue.obj inner

/-- One more unwrap level as claim C4 words it: when the selected payload is
a mapping containing a result key, take that value, and otherwise keep the
payload. -/
def specFlattenOnce : JValue → JValue
  | JValue.obj m =>
    match List.lookup "result" m with
    | some v => v
    | none => JValue.obj m
  | v => v

/-- The success gate of the inner code check, as the code computes it. -/
def innerCodeOk (inner : List (String × JValue)) : Bool :=
  match innerCodePy inner with
  | none => true
  | some c => successCode c

/-- The extraction of the code agrees with the spec-worded selection followed
by the spec-worded single flattening step. -/
theorem extractResult_eq_spec (inner : List (String × JValue)) :
    extractResult inner = specFlattenOnce (specSelectPayload inner) := by
  unfold extractResult specSelectPayload specFlattenOnce
  rcases List.lookup "resp_result" inner with _ | v
  · rcases List.lookup "result" inner with _ | v
    · rcases List.lookup "data" inner with _ | v
      · rfl
      · cases v <;> rfl
    · cases v <;> rfl
  · cases v <;> rfl

/-- Claim C4: on a response whose key is present with an object value whose
inner code passes the success gate, the unwrapper returns the first present
payload among resp_result, result and data, or the inner object itself, with
exactly one more unwrap level when that payload is a mapping containing a
result key. -/
theorem c4_payload_precedence (response : List (String × JValue)) (responseName : String)
    (inner : List (String × JValue))
    (hin : List.lookup responseName response = some (JValue.obj inner))
    (hok : innerCodeOk inner = true) :
    unwrapResponse response responseName = .ok (specFlattenOnce (specSelectPayload inner)) := by
  unfold unwrapResponse
  rw [hin]
  show unwrapInner inner = _
  unfold unwrapInner
  unfold innerCodeOk at hok
  rcases hc : innerCodePy inner with _ | c
  · show Except.ok (extractResult inner) = _
    rw [extractResult_eq_spec]
  · have hok2 : successCode c = true := by
      rw [hc] at hok
      exact hok
    show (if successCode c = false then _ else _) = _
    rw [if_neg (by simp [hok2])]
    show Except.ok (extractResult inner) = _
    rw [extractResult_eq_spec]

/-- Witness for C4 at the double-nesting scenario of the spec: a result
inside a result flattens exactly once, to the innermost object. -/
theorem c4_payload_precedence_witness :
    unwrapResponse
      [("foo_response", JValue.obj
        [("result", JValue.obj [("result", JValue.obj [("b", JValue.num 2)])])])]
      "foo_response"
      = .ok (JValue.obj [("b", JValue.num 2)]) :=
  c4_payload_precedence
    [("foo_response", JValue.obj
      [("result", JValue.obj [("result", JValue.obj [("b", JValue.num 2)])])])]
    "foo_response"
    [("result", JValue.obj [("result", JValue.obj [("b", JValue.num 2)])])] rfl rfl

/-- The missing-key branch always raises the one class
ApiRequestResponseException, whichever of its two messages applies. -/
theorem unwrapMissing_class (response : List (String × JValue)) (responseName : String) :
    ∃ m, unwrapMissing response responseName = .error (.apiRequestResponseException m) := by
  unfold unwrapMissing
  rcases hc : List.lookup "code" response with _ | c
  · exact ⟨_, rfl⟩
  · show ∃ m, (if successCode c = false then _ else _) = _
    by_cases hs : successCode c = false
    · rw [if_pos hs]
      exact ⟨_, rfl⟩
    · rw [if_neg hs]
      exact ⟨_, rfl⟩

/-- Claim C5 counterexample: the two failure outcomes of the missing-key path
are NOT distinguishable error types; the top-level provider rejection and the
uninterpretable envelope are raised as the same class
ApiRequestResponseException, differing only in message text. -/
theorem c5_counterexample :
    unwrapResponse [("code", JValue.str "15"), ("msg", JValue.str "boom")] "foo_response"
      = .error (.apiRequestResponseException "API Error 15: boom")
    ∧ unwrapResponse [("bar", JValue.obj [])] "foo_response"
      = .error (.apiRequestResponseException
          "Response key \x27foo_response\x27 not found. Available: [\x27bar\x27]")
    ∧ pyErrorClass (.apiRequestResponseException "API Error 15: boom")
        = pyErrorClass (.apiRequestResponseException
            "Response key \x27foo_response\x27 not found. Available: [\x27bar\x27]") :=
  ⟨rfl, rfl, rfl⟩

/-- Claim C5 as amended: when the response key is absent, api_request raises
ApiRequestResponseException in every case: with a message built from the
top-level code and msg when a code outside the success set is present, and
with a message listing the available top-level keys otherwise; the two
outcomes share the one exception class and are distinguishable only by
message content. -/
theorem c5_corrected (response : List (String × JValue)) (responseName : String)
    (habs : List.lookup responseName response = none) :
    (∀ c, List.lookup "code" response = some c → successCode c = false →
        unwrapResponse response responseName
          = .error (.apiRequestResponseException ("API Error " ++ pyStr c ++ ": " ++
              pyStr ((List.lookup "msg" response).getD (JValue.str "Unknown error")))))
    ∧ ((∀ c, List.lookup "code" response = some c → successCode c = true) →
        unwrapResponse response responseName
          = .error (.apiRequestResponseException (shapeErrorMsg response responseName)))
    ∧ (∀ e, unwrapResponse response responseName = .error e →
        pyErrorClass e = "ApiRequestResponseException") := by
  have hm : unwrapResponse response responseName = unwrapMissing response responseName := by
    unfold unwrapResponse
    rw [habs]
  refine ⟨?_, ?_, ?_⟩
  · intro c hc hs
    rw [hm]
    unfold unwrapMissing
    rw [hc]
    show (if successCode c = false then _ else _) = _
    rw [if_pos hs]
  · intro hall
    rw [hm]
    unfold unwrapMissing
    rcases hc : List.lookup "code" response with _ | c
    · rfl
    · show (if successCode c = false then _ else _) = _
      rw [if_neg (by simp [hall c hc])]
  · intro e he
    obtain ⟨m, hm2⟩ := unwrapMissing_class response responseName
    rw [hm, hm2] at he
    have h3 : PyError.apiRequestResponseException m = e := Except.error.inj he
    rw [← h3]
    rfl

/-- Witness for the amended C5 at the missing-key scenario of the spec: the
raw object has only the key bar, so the shape error lists it. -/
theorem c5_corrected_witness :
    unwrapResponse [("bar", JValue.obj [])] "foo_response"
      = .error (.apiRequestResponseException
          "Response key \x27foo_response\x27 not found. Available: [\x27bar\x27]") :=
  (c5_corrected [("bar", JValue.obj [])] "foo_response" rfl).2.1 (fun _ hc => nomatch hc)

/-- Claim C6 counterexample: a Dispatcher failure is NOT observed unmodified
by the caller of the pipeline; a TopException carrying provider code 15 and
message boom is rewrapped into an ApiRequestException that retains only the
message value. -/
theorem c6_counterexample :
    api_request (.error (PyError.topException (some (JValue.str "15"))
        (some (JValue.str "boom")) none none "" "")) "foo_response"
      = .error (.apiRequestException (some (JValue.str "boom")))
    ∧ api_request (.error (PyError.topException (some (JValue.str "15"))
        (some (JValue.str "boom")) none none "" "")) "foo_response"
      ≠ .error (PyError.topException (some (JValue.str "15"))
        (some (JValue.str "boom")) none none "" "") := by
  constructor
  · rfl
  · intro h
    exact PyError.noConfusion (Except.error.inj h)

/-- Claim C6 as amended: a Dispatcher failure reaches the caller of
api_request rewrapped as ApiRequestException; for a TopException the argument
is the message attribute alone, so the observed exception is independent of
the provider error code and sub fields, and for a RequestException the
argument is its rendered text. The original exception survives only as the
cause of the new one, not as the raised error. -/
theorem c6_corrected (responseName : String) (ca cb sca scb sma smb : Option JValue)
    (m : Option JValue) (aha sha ahb shb : String) (s : String) :
    api_request (.error (.topException ca m sca sma aha sha)) responseName
      = .error (.apiRequestException m)
    ∧ api_request (.error (.topException ca m sca sma aha sha)) responseName
      = api_request (.error (.topException cb m scb smb ahb shb)) responseName
    ∧ api_request (.error (.requestException s)) responseName
      = .error (.apiRequestException (some (JValue.str s))) :=
  ⟨rfl, rfl, rfl⟩

/-! ## The Model Binder: BaseModel.from_dict from models/base.py

A declared result shape is a list of fields, each with a name, a declared
type and a declared default; every dataclass field of the models package
declares a default, so the shape carries one per field. A field type is
either plain (the raw value is copied verbatim, which also covers list
fields of plain element type and the one string-annotated forward reference,
both of which the Python code copies verbatim), a nested bindable shape, or
a list of a nested bindable shape. A bound instance is a PyVal.
-/

inductive FieldTy where
  | prim : FieldTy
  | nested (s : List (String × FieldTy × JValue)) : FieldTy
  | listOf (s : List (String × FieldTy × JValue)) : FieldTy

abbrev Shape := List (String × FieldTy × JValue)

inductive PyVal where
  | raw (v : JValue)
  | inst (fields : List (String × PyVal))
  | listInst (xs : List PyVal)

/-- Fields of a default-initialized instance: every declared field at its
declared default. -/
def defaultFields : Shape → List (String × PyVal)
  | [] => []
  | (n, _, d) :: rest => (n, .raw d) :: defaultFields rest

/-- A default-initialized instance, the cls() fallback of from_dict. -/
def defaultInst (shape : Shape) : PyVal := .inst (defaultFields shape)

mutual

/-- BaseModel.from_dict of models/base.py: a non-dictionary or empty payload
falls back to a default instance, and otherwise every declared field is bound
from the payload, with unknown payload keys ignored. -/
def from_dict (shape : Shape) (data : JValue) : PyVal :=
  match data with
  | .obj [] => defaultInst shape
  | .obj es => .inst (boundFields shape es)
  | _ => defaultInst shape

/-- One bound field per declared field: the declared default when the payload
misses the key, and the value bound through the declared type otherwise. -/
def boundFields : Shape → List (String × JValue) → List (String × PyVal)
  | [], _ => []
  | (n, ty, d) :: rest, es =>
      (match List.lookup n es with
       | none => (n, PyVal.raw d)
       | some v => (n, bindField ty v)) :: boundFields rest es

/-- Binding of one present payload value at a declared field type: plain
fields copy the raw value, a nested shape binds a dictionary recursively and
becomes None on any other value, and a list of a nested shape binds each
element of a list and becomes the empty list on any other value. -/
def bindField (ty : FieldTy) (v : JValue) : PyVal :=
  match ty, v with
  | .prim, v => .raw v
  | .nested s, .obj es => from_dict s (.obj es)
  | .nested _, _ => .raw .null
  | .listOf s, .arr xs => .listInst (bindList s xs)
  | .listOf _, _ => .listInst []

def bindList (s : Shape) : List JValue → List PyVal
  | [] => []
  | v :: rest => from_dict s v :: bindList s rest

end

/-- The field names of a bound instance. -/
def instFieldNames : PyVal → List String
  | .inst fields => fields.map Prod.fst
  | _ => []

/-- Lookup of a field of a bound instance. -/
def instLookup : PyVal → String → Option PyVal
  | .inst fields, n => List.lookup n fields
  | _, _ => none

/-- The default fields are exactly the declared fields at their declared
defaults. -/
theorem defaultFields_eq (shape : Shape) :
    defaultFields shape = shape.map (fun f => (f.1, PyVal.raw f.2.2)) := by
  induction shape with
  | nil => rfl
  | cons f rest ih =>
    rcases f with ⟨n, ty, d⟩
    simp [defaultFields, ih]

/-- The bound fields carry exactly the declared field names, in order. -/
theorem boundFields_names (shape : Shape) (es : List (String × JValue)) :
    (boundFields shape es).map Prod.fst = shape.map Prod.fst := by
  induction shape with
  | nil => simp [boundFields]
  | cons f rest ih =>
    rcases f with ⟨n, ty, d⟩
    rcases hl : List.lookup n es with _ | v <;>
      simp [boundFields, hl, ih]

/-- A declared field present in the payload is bound to its payload value
through its declared type. -/
theorem boundFields_lookup (shape : Shape) (es : List (String × JValue))
    (n : String) (ty : FieldTy) (d v : JValue)
    (hmem : (n, ty, d) ∈ shape) (hnd : (shape.map Prod.fst).Nodup)
    (hlook : List.lookup n es = some v) :
    List.lookup n (boundFields shape es) = some (bindField ty v) := by
  induction shape with
  | nil => exact absurd hmem (List.not_mem_nil _)
  | cons f rest ih =>
    rcases f with ⟨n0, ty0, d0⟩
    simp only [List.map_cons, List.nodup_cons] at hnd
    rcases List.mem_cons.mp hmem with hhead | htail
    · injection hhead with hn hrest
      injection hrest with hty hd
      subst hn
      subst hty
      subst hd
      simp only [boundFields]
      rw [hlook]
      show List.lookup n ((n, bindField ty v) :: boundFields rest es) = some (bindField ty v)
      exact List.lookup_cons_self
    · have hn0 : ¬ n = n0 := fun he => hnd.1 (he ▸ List.mem_map_of_mem Prod.fst htail)
      rcases hl0 : List.lookup n0 es with _ | v0
      · simp only [boundFields]
        rw [hl0]
        show List.lookup n ((n0, PyVal.raw d0) :: boundFields rest es) = some (bindField ty v)
        rw [lookup_cons_ite]
        rw [if_neg (by simp [hn0])]
        exact ih htail hnd.2
      · simp only [boundFields]
        rw [hl0]
        show List.lookup n ((n0, bindField ty0 v0) :: boundFields rest es) = some (bindField ty v)
        rw [lookup_cons_ite]
        rw [if_neg (by simp [hn0])]
        exact ih htail hnd.2

/-- A nonempty dictionary payload binds to an instance of bound fields. -/
theorem from_dict_obj_cons (shape : Shape) (e : String × JValue)
    (rest : List (String × JValue)) :
    from_dict shape (JValue.obj (e :: rest)) = PyVal.inst (boundFields shape (e :: rest)) := by
  simp [from_dict]

/-- Claim C7: the Model Binder is total by construction and lenient: a
payload that is not a mapping and the empty mapping both yield the
default-initialized instance with every declared field at its declared
default; the bound instance carries exactly the declared field names, so
payload keys naming no declared field are dropped; and a declared field
present in the payload is set to the payload value bound through its
declared type, which for a plain field is the raw value itself. -/
theorem c7_binder_leniency (shape : Shape) (data : JValue) :
    ((∀ es, data ≠ JValue.obj es) → from_dict shape data = defaultInst shape)
    ∧ from_dict shape (JValue.obj []) = defaultInst shape
    ∧ defaultInst shape = PyVal.inst (shape.map (fun f => (f.1, PyVal.raw f.2.2)))
    ∧ instFieldNames (from_dict shape data) = shape.map Prod.fst
    ∧ (∀ es n ty d v, data = JValue.obj es → es ≠ [] → (n, ty, d) ∈ shape →
        (shape.map Prod.fst).Nodup → List.lookup n es = some v →
        instLookup (from_dict shape data) n = some (bindField ty v)) := by
  refine ⟨?_, ?_, ?_, ?_, ?_⟩
  · intro hne
    cases data with
    | obj es => exact absurd rfl (hne es)
    | null => simp [from_dict]
    | bool b => simp [from_dict]
    | num n => simp [from_dict]
    | str s => simp [from_dict]
    | arr xs => simp [from_dict]
  · simp [from_dict]
  · unfold defaultInst
    rw [defaultFields_eq]
  · cases data with
    | obj es =>
      cases es with
      | nil =>
        simp [from_dict, instFieldNames, defaultInst, defaultFields_eq, List.map_map]
      | cons e rest =>
        rw [from_dict_obj_cons]
        unfold instFieldNames
        exact boundFields_names shape (e :: rest)
    | null => simp [from_dict, instFieldNames, defaultInst, defaultFields_eq, List.map_map]
    | bool b => simp [from_dict, instFieldNames, defaultInst, defaultFields_eq, List.map_map]
    | num n => simp [from_dict, instFieldNames, defaultInst, defaultFields_eq, List.map_map]
    | str s => simp [from_dict, instFieldNames, defaultInst, defaultFields_eq, List.map_map]
    | arr xs => simp [from_dict, instFieldNames, defaultInst, defaultFields_eq, List.map_map]
  · intro es n ty d v hdata hne hmem hnd hlook
    subst hdata
    cases es with
    | nil => exact absurd rfl hne
    | cons e rest =>
      rw [from_dict_obj_cons]
      unfold instLookup
      exact boundFields_lookup shape (e :: rest) n ty d v hmem hnd hlook

/-- Witness for C7 at the binder field-drop scenario of the spec: binding a
payload with one unknown key and one declared key to a one-field shape sets
the declared field to the payload value, drops the unknown key, and the
empty mapping still binds to the default instance. -/
theorem c7_binder_leniency_witness :
    instLookup
        (from_dict [("known_field", FieldTy.prim, JValue.str "")]
          (JValue.obj [("unexpected_field", JValue.num 1), ("known_field", JValue.str "x")]))
        "known_field"
      = some (PyVal.raw (JValue.str "x"))
    ∧ instFieldNames
        (from_dict [("known_field", FieldTy.prim, JValue.str "")]
          (JValue.obj [("unexpected_field", JValue.num 1), ("known_field", JValue.str "x")]))
      = ["known_field"]
    ∧ from_dict [("known_field", FieldTy.prim, JValue.str "")] (JValue.obj [])
      = defaultInst [("known_field", FieldTy.prim, JValue.str "")] := by
  refine ⟨?_, ?_, ?_⟩
  · have h := (c7_binder_leniency [("known_field", FieldTy.prim, JValue.str "")]
      (JValue.obj [("unexpected_field", JValue.num 1), ("known_field", JValue.str "x")])).2.2.2.2
      [("unexpected_field", JValue.num 1), ("known_field", JValue.str "x")]
      "known_field" FieldTy.prim (JValue.str "") (JValue.str "x")
      rfl (by simp) (List.mem_singleton.mpr rfl) (by simp) rfl
    rw [h]
    simp [bindField]
  · exact (c7_binder_leniency [("known_field", FieldTy.prim, JValue.str "")]
      (JValue.obj [("unexpected_field", JValue.num 1), ("known_field", JValue.str "x")])).2.2.2.1
  · exact (c7_binder_leniency [("known_field", FieldTy.prim, JValue.str "")]
      (JValue.obj [("unexpected_field", JValue.num 1), ("known_field", JValue.str "x")])).2.1

/-! ## getApplicationParameters from sdk/api/base.py lines 244 to 268

The Python method walks the instance dictionary of the request object. That
dictionary holds the name-mangled private attributes of the RestApi base
class, whose keys start with the mangled marker, and the declared endpoint
fields, whose names are plain identifiers. Values are arbitrary; a None
value means the field is unset. The value type is a parameter of the
embedding.
-/

/-- Character-list test that the second list starts with the first. -/
def charsStarts : List Char → List Char → Bool
  | [], _ => true
  | _ :: _, [] => false
  | a :: as, b :: bs => a == b && charsStarts as bs

/-- The str.startswith test of Python. -/
def strStarts (s pre : String) : Bool := charsStarts pre.data s.data

/-- The Python slice key[1:] on a string key. -/
def strDrop1 (s : String) : String := String.mk (s.data.drop 1)

/-- The first loop of getApplicationParameters: keep attributes whose key
does not start with two underscores, is not a multipart parameter name, does
not start with the mangled RestApi marker, and whose value is not None;
a kept key loses one leading underscore when it has one. -/
def appParamsPre {α : Type} (instDict : List (String × Option α))
    (multipartParas : List String) : List (String × α) :=
  instDict.filterMap (fun p =>
    match p.2 with
    | none => none
    | some v =>
      if strStarts p.1 "__" || multipartParas.contains p.1 || strStarts p.1 "_RestApi__" then
        none
      else if strStarts p.1 "_" then some (strDrop1 p.1, v)
      else some (p.1, v))

/-- Python dictionary assignment d at wire set to value: an update in place
when the key exists, an appended entry otherwise. -/
def dictSet {α : Type} (d : List (String × α)) (k : String) (v : α) : List (String × α) :=
  if d.any (fun p => p.1 == k) then d.map (fun p => if p.1 == k then (k, v) else p)
  else d ++ [(k, v)]

/-- Python del of a dictionary key. -/
def dictDel {α : Type} (d : List (String × α)) (k : String) : List (String × α) :=
  d.filter (fun p => !(p.1 == k))

/-- One iteration of the translation loop, lines 262 to 265: when the
iterated key has a wire name, the wire name is assigned the current value of
the key and the key is deleted. -/
def translateStep {α : Type} (translateParas : List (String × String))
    (d : List (String × α)) (key : String) : List (String × α) :=
  match List.lookup key translateParas with
  | some wire =>
    match List.lookup key d with
    | some v => dictDel (dictSet d wire v) key
    | none => d
  | none => d

/-- The translation loop over a snapshot of the keys, as list() takes one. -/
def applyTranslate {α : Type} (translateParas : List (String × String))
    (d : List (String × α)) : List (String × α) :=
  (d.map Prod.fst).foldl (translateStep translateParas) d

/-- getApplicationParameters: the non-None plain attributes, renamed through
the translation table. -/
def getApplicationParameters {α : Type} (instDict : List (String × Option α))
    (multipartParas : List String) (translateParas : List (String × String)) :
    List (String × α) :=
  applyTranslate translateParas (appParamsPre instDict multipartParas)

/-- Lookup misses every list whose keys avoid the probed key. -/
theorem lookup_eq_none_of_not_mem {β : Type} {l : List (String × β)} {k : String}
    (h : k ∉ l.map Prod.fst) : List.lookup k l = none :=
  List.lookup_eq_none_iff.mpr (fun p hp => by
    simp only [bne_iff_ne, ne_eq]
    exact fun he => h (he ▸ List.mem_map_of_mem Prod.fst hp))

/-- Deleting an absent key leaves a dictionary unchanged. -/
theorem dictDel_eq_self {α : Type} {l : List (String × α)} {k : String}
    (h : k ∉ l.map Prod.fst) : dictDel l k = l :=
  List.filter_eq_self.mpr (fun p hp => by
    have hne : p.1 ≠ k := fun he => h (he ▸ List.mem_map_of_mem Prod.fst hp)
    simp [hne])

/-- Assignment of a fresh key appends the entry. -/
theorem dictSet_append {α : Type} {l : List (String × α)} {k : String} (v : α)
    (h : k ∉ l.map Prod.fst) : dictSet l k v = l ++ [(k, v)] := by
  unfold dictSet
  have hany : l.any (fun p => p.1 == k) = false := by
    rw [List.any_eq_false]
    intro p hp
    have hne : p.1 ≠ k := fun he => h (he ▸ List.mem_map_of_mem Prod.fst hp)
    simp [hne]
  rw [hany]
  simp

/-- The translation loop, characterized: iterating over the keys of the
middle segment moves every translated entry, renamed to its wire name, to
the end of the dictionary and leaves every untranslated entry in place,
provided all keys are pairwise distinct, wire names are fresh with respect
to the dictionary, and the table maps distinct keys to distinct wires. -/
theorem translate_fold {α : Type} (t : List (String × String))
    (htv : (t.map Prod.snd).Nodup) :
    ∀ (rest pre post : List (String × α)),
      (pre.map Prod.fst).Nodup →
      ((rest.map Prod.fst).Nodup) →
      (∀ x ∈ rest.map Prod.fst, x ∉ pre.map Prod.fst) →
      (∀ x ∈ rest.map Prod.fst, x ∉ post.map Prod.fst) →
      (∀ w ∈ t.map Prod.snd, w ∉ pre.map Prod.fst) →
      (∀ w ∈ t.map Prod.snd, w ∉ rest.map Prod.fst) →
      (∀ p ∈ rest, ∀ w, List.lookup p.1 t = some w → w ∉ post.map Prod.fst) →
      (rest.map Prod.fst).foldl (translateStep t) (pre ++ rest ++ post) =
        pre ++ rest.filter (fun p => (List.lookup p.1 t).isNone) ++ post ++
          (rest.filter (fun p => (List.lookup p.1 t).isSome)).map
            (fun p => ((List.lookup p.1 t).getD p.1, p.2)) := by
  intro rest
  induction rest with
  | nil =>
    intro pre post _ _ _ _ _ _ _
    simp
  | cons hd rest ih =>
    rcases hd with ⟨k, v⟩
    intro pre post h1 h2 h12 h13 hw1 hw2 hw3
    have hk_not_pre : k ∉ pre.map Prod.fst := h12 k (by simp)
    have hk_not_rest : k ∉ rest.map Prod.fst := by
      have h2' := h2
      simp only [List.map_cons, List.nodup_cons] at h2'
      exact h2'.1
    have hk_not_post : k ∉ post.map Prod.fst := h13 k (by simp)
    have h2tail : (rest.map Prod.fst).Nodup := by
      have h2' := h2
      simp only [List.map_cons, List.nodup_cons] at h2'
      exact h2'.2
    simp only [List.map_cons, List.foldl_cons]
    rcases hw : List.lookup k t with _ | w
    · have hstep : translateStep t (pre ++ (k, v) :: rest ++ post) k
          = pre ++ (k, v) :: rest ++ post := by
        unfold translateStep
        rw [hw]
      rw [hstep]
      have hassoc : pre ++ (k, v) :: rest ++ post = (pre ++ [(k, v)]) ++ rest ++ post := by
        simp
      rw [hassoc]
      rw [ih (pre ++ [(k, v)]) post
        (by
          rw [List.map_append]
          refine List.Nodup.append h1 (by simp) ?_
          intro a ha hb
          simp only [List.map_cons, List.map_nil, List.mem_cons, List.not_mem_nil,
            or_false] at hb
          exact hk_not_pre (hb ▸ ha))
        h2tail
        (by
          intro x hx
          rw [List.map_append]
          rw [List.mem_append]
          rintro (hxa | hxb)
          · exact h12 x (by simp [hx]) hxa
          · simp only [List.map_cons, List.map_nil, List.mem_cons, List.not_mem_nil,
              or_false] at hxb
            exact hk_not_rest (hxb ▸ hx)
          )
        (fun x hx => h13 x (by simp [hx]))
        (by
          intro w hwm
          rw [List.map_append]
          rw [List.mem_append]
          rintro (hxa | hxb)
          · exact hw1 w hwm hxa
          · simp only [List.map_cons, List.map_nil, List.mem_cons, List.not_mem_nil,
              or_false] at hxb
            exact hw2 w hwm (by simp [hxb])
          )
        (fun w hwm hxm => hw2 w hwm (by simp [hxm]))
        (fun p hp w hlw => hw3 p (by simp [hp]) w hlw)]
      have hfilt1 : ((k, v) :: rest).filter (fun p => (List.lookup p.1 t).isNone)
          = (k, v) :: rest.filter (fun p => (List.lookup p.1 t).isNone) := by
        rw [List.filter_cons]
        simp [hw]
      have hfilt2 : ((k, v) :: rest).filter (fun p => (List.lookup p.1 t).isSome)
          = rest.filter (fun p => (List.lookup p.1 t).isSome) := by
        rw [List.filter_cons]
        simp [hw]
      rw [hfilt1, hfilt2]
      simp
    · have hwv : w ∈ t.map Prod.snd := List.mem_map_of_mem Prod.snd (mem_of_lookup hw)
      have hw_not_pre : w ∉ pre.map Prod.fst := hw1 w hwv
      have hw_not_krest : w ∉ ((k, v) :: rest).map Prod.fst := hw2 w hwv
      have hw_ne_k : w ≠ k := by
        intro he
        exact hw_not_krest (by simp [he])
      have hw_not_rest : w ∉ rest.map Prod.fst := by
        intro hm
        exact hw_not_krest (by simp [hm])
      have hw_not_post : w ∉ post.map Prod.fst := hw3 (k, v) (by simp) w hw
      have hlookup_pre : List.lookup k pre = none := lookup_eq_none_of_not_mem hk_not_pre
      have hlookup_state : List.lookup k (pre ++ (k, v) :: rest ++ post) = some v := by
        rw [List.lookup_append, List.lookup_append, hlookup_pre]
        simp
      have hset : dictSet (pre ++ (k, v) :: rest ++ post) w v
          = (pre ++ (k, v) :: rest ++ post) ++ [(w, v)] := by
        refine dictSet_append v ?_
        simp only [List.map_append, List.mem_append]
        rintro ((hxa | hxb) | hxc)
        · exact hw_not_pre hxa
        · exact hw_not_krest hxb
        · exact hw_not_post hxc
      have hdel : dictDel ((pre ++ (k, v) :: rest ++ post) ++ [(w, v)]) k
          = pre ++ rest ++ (post ++ [(w, v)]) := by
        unfold dictDel
        rw [List.filter_append, List.filter_append, List.filter_append]
        rw [show List.filter (fun p => !(p.1 == k)) pre = pre from dictDel_eq_self hk_not_pre]
        rw [show List.filter (fun p => !(p.1 == k)) post = post from dictDel_eq_self hk_not_post]
        rw [show List.filter (fun p => !(p.1 == k)) [(w, v)] = [(w, v)] from
          dictDel_eq_self (by
            simp only [List.map_cons, List.map_nil, List.mem_cons, List.not_mem_nil, or_false]
            exact fun he => hw_ne_k he.symm)]
        rw [List.filter_cons]
        simp only [beq_self_eq_true, Bool.not_true, Bool.false_eq_true, if_neg,
          reduceIte]
        rw [show List.filter (fun p => !(p.1 == k)) rest = rest from dictDel_eq_self hk_not_rest]
        simp
      have hstep : translateStep t (pre ++ (k, v) :: rest ++ post) k
          = pre ++ rest ++ (post ++ [(w, v)]) := by
        unfold translateStep
        rw [hw]
        show (match List.lookup k (pre ++ (k, v) :: rest ++ post) with
          | some v0 => dictDel (dictSet (pre ++ (k, v) :: rest ++ post) w v0) k
          | none => pre ++ (k, v) :: rest ++ post) = _
        rw [hlookup_state]
        show dictDel (dictSet (pre ++ (k, v) :: rest ++ post) w v) k = _
        rw [hset, hdel]
      rw [hstep]
      rw [ih pre (post ++ [(w, v)])
        h1
        h2tail
        (fun x hx => h12 x (by simp [hx]))
        (by
          intro x hx
          rw [List.map_append]
          rw [List.mem_append]
          rintro (hxa | hxb)
          · exact h13 x (by simp [hx]) hxa
          · simp only [List.map_cons, List.map_nil, List.mem_cons, List.not_mem_nil,
              or_false] at hxb
            exact hw_not_rest (hxb ▸ hx)
          )
        hw1
        (fun w2 hwm hxm => hw2 w2 hwm (by simp [hxm]))
        (by
          intro p hp w2 hlw
          rw [List.map_append]
          rw [List.mem_append]
          rintro (hxa | hxb)
          · exact hw3 p (by simp [hp]) w2 hlw hxa
          · simp only [List.map_cons, List.map_nil, List.mem_cons, List.not_mem_nil,
              or_false] at hxb
            have hpk : p.1 ≠ k := by
              intro he
              exact hk_not_rest (he ▸ List.mem_map_of_mem Prod.fst hp)
            exact lookup_ne_of_nodup htv hpk hlw hw (hxb.symm ▸ rfl)
          )]
      have hfilt1 : ((k, v) :: rest).filter (fun p => (List.lookup p.1 t).isNone)
          = rest.filter (fun p => (List.lookup p.1 t).isNone) := by
        rw [List.filter_cons]
        simp [hw]
      have hfilt2 : ((k, v) :: rest).filter (fun p => (List.lookup p.1 t).isSome)
          = (k, v) :: rest.filter (fun p => (List.lookup p.1 t).isSome) := by
        rw [List.filter_cons]
        simp [hw]
      rw [hfilt1, hfilt2]
      simp [hw]

/-- A test against a one-character pattern that fails also fails against any
longer pattern with the same first character. -/
theorem charsStarts_cons_false (c : Char) (cs : List Char) (l : List Char)
    (h : charsStarts [c] l = false) : charsStarts (c :: cs) l = false := by
  cases l with
  | nil => rfl
  | cons b bs =>
    simp only [charsStarts, Bool.and_true] at h
    simp [charsStarts, h]

/-- A key with no leading underscore starts neither with two underscores nor
with the mangled RestApi marker. -/
theorem strStarts_underscore_all {k : String} (h : strStarts k "_" = false) :
    strStarts k "__" = false ∧ strStarts k "_RestApi__" = false := by
  unfold strStarts at h ⊢
  exact ⟨charsStarts_cons_false _ _ _ h, charsStarts_cons_false _ _ _ h⟩

/-- Membership in the filtered attribute list: exactly the plain, non
multipart attributes with a non-None value, under their own names. -/
theorem appParamsPre_mem {α : Type} {instDict : List (String × Option α)}
    {multipartParas : List String}
    (hshape : ∀ p ∈ instDict, strStarts p.1 "_RestApi__" = true ∨ strStarts p.1 "_" = false)
    (k : String) (v : α) :
    (k, v) ∈ appParamsPre instDict multipartParas ↔
      ((k, some v) ∈ instDict ∧ strStarts k "_" = false
        ∧ multipartParas.contains k = false) := by
  unfold appParamsPre
  rw [List.mem_filterMap]
  constructor
  · rintro ⟨p, hp, hf⟩
    rcases p with ⟨k0, o⟩
    cases o with
    | none => exact absurd hf (by simp)
    | some v0 =>
      rcases hshape (k0, some v0) hp with hint | hplain
      · simp [hint] at hf
      · have hdd := strStarts_underscore_all hplain
        by_cases hmp : multipartParas.contains k0
        · have hmp2 : k0 ∈ multipartParas := by simpa using hmp
          simp [hdd.1, hdd.2, hmp2] at hf
        · simp only [hdd.1, hdd.2, hplain, Bool.false_or, Bool.or_false,
            Bool.not_eq_true] at hf
          rw [show multipartParas.contains k0 = false from Bool.eq_false_iff.mpr hmp] at hf
          simp only [Bool.false_eq_true, if_false, if_neg] at hf
          have hf2 : (k0, v0) = (k, v) := by
            have := hf
            simp at this
            exact Prod.ext this.1 this.2
          injection hf2 with hk hv
          subst hk
          subst hv
          exact ⟨hp, hplain, Bool.eq_false_iff.mpr hmp⟩
  · rintro ⟨hmem, hplain, hmp⟩
    refine ⟨(k, some v), hmem, ?_⟩
    have hdd := strStarts_underscore_all hplain
    simp [hdd.1, hdd.2, hmp, hplain]
    simpa using hmp

/-- The filtered attribute keys form a sublist of the attribute keys. -/
theorem appParamsPre_keys_sublist {α : Type} {instDict : List (String × Option α)}
    {multipartParas : List String}
    (hshape : ∀ p ∈ instDict, strStarts p.1 "_RestApi__" = true ∨ strStarts p.1 "_" = false) :
    ((appParamsPre instDict multipartParas).map Prod.fst).Sublist
      (instDict.map Prod.fst) := by
  induction instDict with
  | nil => simp [appParamsPre]
  | cons p rest ih =>
    have ihr := ih (fun q hq => hshape q (List.mem_cons_of_mem p hq))
    rcases p with ⟨k0, o⟩
    unfold appParamsPre at ihr ⊢
    rw [List.filterMap_cons]
    cases o with
    | none =>
      simp only [List.map_cons]
      exact ihr.cons k0
    | some v0 =>
      rcases hshape (k0, some v0) (by simp) with hint | hplain
      · simp only [hint, Bool.or_true, if_pos, List.map_cons]
        exact ihr.cons k0
      · have hdd := strStarts_underscore_all hplain
        by_cases hmp : multipartParas.contains k0
        · simp only [hdd.1, hdd.2, hmp, Bool.false_or, Bool.or_false, if_pos, List.map_cons]
          exact ihr.cons k0
        · rw [show multipartParas.contains k0 = false from Bool.eq_false_iff.mpr hmp]
          simp only [hdd.1, hdd.2, hplain, Bool.false_or, Bool.or_false,
            Bool.false_eq_true, if_false, if_neg, List.map_cons]
          exact ihr.cons₂ k0

/-- Claim C10: the application-parameter dictionary the Dispatcher sends
contains exactly the declared fields of the descriptor whose value is not
None, with mangled internal attributes and multipart field names never
appearing, each surviving field renamed through the translation table when
the table defines a wire name for it and keeping its own name otherwise, and
every value unchanged. The hypotheses state the shape every descriptor class
of the repository has: pairwise distinct attribute names, every attribute
either a mangled internal or a plain identifier, pairwise distinct wire
names, and wire names distinct from all attribute names. -/
theorem c10_application_parameters {α : Type} (instDict : List (String × Option α))
    (multipartParas : List String) (translateParas : List (String × String))
    (hdk : (instDict.map Prod.fst).Nodup)
    (hshape : ∀ p ∈ instDict, strStarts p.1 "_RestApi__" = true ∨ strStarts p.1 "_" = false)
    (htv : (translateParas.map Prod.snd).Nodup)
    (hwf : ∀ w ∈ translateParas.map Prod.snd, w ∉ instDict.map Prod.fst) :
    ∀ k v, (k, v) ∈ getApplicationParameters instDict multipartParas translateParas ↔
      ∃ k0, (k0, some v) ∈ instDict ∧ strStarts k0 "_" = false
        ∧ multipartParas.contains k0 = false
        ∧ (List.lookup k0 translateParas).getD k0 = k := by
  intro k v
  have hsub := @appParamsPre_keys_sublist α instDict multipartParas hshape
  have hdnd : ((appParamsPre instDict multipartParas).map Prod.fst).Nodup :=
    hsub.nodup hdk
  have hwf2 : ∀ w ∈ translateParas.map Prod.snd,
      w ∉ (appParamsPre instDict multipartParas).map Prod.fst :=
    fun w hw hm => hwf w hw (hsub.subset hm)
  have hfold := translate_fold translateParas htv (appParamsPre instDict multipartParas) [] []
    (by simp) hdnd (by simp) (by simp) (by simp) hwf2 (by simp)
  simp only [List.nil_append, List.append_nil] at hfold
  have hmain : getApplicationParameters instDict multipartParas translateParas
      = (appParamsPre instDict multipartParas).filter
          (fun p => (List.lookup p.1 translateParas).isNone)
        ++ ((appParamsPre instDict multipartParas).filter
            (fun p => (List.lookup p.1 translateParas).isSome)).map
          (fun p => ((List.lookup p.1 translateParas).getD p.1, p.2)) := by
    unfold getApplicationParameters applyTranslate
    exact hfold
  rw [hmain]
  rw [List.mem_append]
  constructor
  · rintro (hmem | hmem)
    · rw [List.mem_filter] at hmem
      obtain ⟨hmm, hnone⟩ := hmem
      obtain ⟨hdict, hplain, hmp⟩ := (appParamsPre_mem hshape k v).mp hmm
      refine ⟨k, hdict, hplain, hmp, ?_⟩
      rw [Option.isNone_iff_eq_none] at hnone
      rw [hnone]
      rfl
    · rw [List.mem_map] at hmem
      obtain ⟨p, hpf, hpe⟩ := hmem
      rw [List.mem_filter] at hpf
      obtain ⟨hmm, hsome⟩ := hpf
      rcases p with ⟨k0, v0⟩
      injection hpe with hk hv
      subst hv
      obtain ⟨hdict, hplain, hmp⟩ := (appParamsPre_mem hshape k0 v0).mp hmm
      exact ⟨k0, hdict, hplain, hmp, hk⟩
  · rintro ⟨k0, hdict, hplain, hmp, hren⟩
    have hmm : (k0, v) ∈ appParamsPre instDict multipartParas :=
      (appParamsPre_mem hshape k0 v).mpr ⟨hdict, hplain, hmp⟩
    rcases hl : List.lookup k0 translateParas with _ | w
    · left
      rw [List.mem_filter]
      have hk0 : k0 = k := by
        rw [hl] at hren
        simpa using hren
      subst hk0
      exact ⟨hmm, by simp [hl]⟩
    · right
      rw [List.mem_map]
      refine ⟨(k0, v), ?_, ?_⟩
      · rw [List.mem_filter]
        exact ⟨hmm, by simp [hl]⟩
      · rw [hl] at hren
        have hwk : w = k := by simpa using hren
        rw [hl]
        show (w, v) = (k, v)
        rw [hwk]

/-- Witness for C10 at the freight-query descriptor: the mangled domain
attribute and the unset locale field are dropped, the declared field
query_delivery_req is renamed to its wire name queryDeliveryReq with its
value unchanged, and app_signature keeps its own name. -/
theorem c10_application_parameters_witness :
    ("queryDeliveryReq", JValue.str "req")
      ∈ getApplicationParameters
          [("_RestApi__domain", some (JValue.str "api-sg.aliexpress.com")),
           ("query_delivery_req", some (JValue.str "req")),
           ("locale", (none : Option JValue)),
           ("app_signature", some (JValue.str "sig"))]
          [] [("query_delivery_req", "queryDeliveryReq")] :=
  (c10_application_parameters
      [("_RestApi__domain", some (JValue.str "api-sg.aliexpress.com")),
       ("query_delivery_req", some (JValue.str "req")),
       ("locale", (none : Option JValue)),
       ("app_signature", some (JValue.str "sig"))]
      [] [("query_delivery_req", "queryDeliveryReq")]
      (by decide) (by decide) (by decide) (by decide)
      "queryDeliveryReq" (JValue.str "req")).mpr
    ⟨"query_delivery_req",
     List.mem_cons_of_mem _ (List.mem_cons_self _ _),
     by decide, by decide, by decide⟩

/-- The SHA-256 implementation matches the standard test vector for abc. -/
theorem sha256_abc_vector :
    hexUpper (sha256 (utf8 "abc")) =
      "BA7816BF8F01CFEA414140DE5DAE2223B00361A396177A9CB410FF61F20015AD" := by
  decide

/-- The HMAC-SHA-256 implementation matches the standard test vector for the
key key over the quick brown fox sentence. -/
theorem hmacSha256_fox_vector :
    hexUpper (hmacSha256 (utf8 "key") (utf8 "The quick brown fox jumps over the lazy dog")) =
      "F7BC83F430538424B13298E6AA6FB143EF4D59A14946175997479DBC2D1A3CD8" := by
  decide
